import Mathlib

/-!
Verification development for the noot-boter-api product-catalog sync.

The definitions below are a shallow embedding of the JavaScript sources:
  - src/api/update-batch-products.js  (batch handler, normalized option maps,
    strict select handling: unmatched select fields are omitted)
  - src/api/update-single-product.js  (single-record handler)
  - src/unnamed/part_000              (earlier batch handler variant, raw-keyed
    option maps, lenient select handling: unmatched fields fall back to text)

JavaScript strings are modelled as Lean `String` (character-level work happens
on `List Char`); `undefined`/`null` field values are modelled as `Option`;
thrown exceptions as `Except String`.
-/

set_option autoImplicit false

namespace NootBoter

/-- ASCII whitespace characters recognised by the embedding of the JS `\s`
class (the sources only ever meet these). -/
def isWsChar (c : Char) : Bool :=
  c = ' ' || c = '\t' || c = '\n' || c = '\r' || c = '\x0b' || c = '\x0c'

/-- Uppercase ASCII letter, the `[A-Z]` class of the allergen regex. -/
def isUpperChar (c : Char) : Bool := 'A' ≤ c && c ≤ 'Z'

/-- ASCII digit, the `\d` class of the variant-suffix regex. -/
def isDigitChar (c : Char) : Bool := '0' ≤ c && c ≤ '9'

/-- The JS `\w` word-character class `[A-Za-z0-9_]`, used by `\b` and by the
`replace` of `^\w` in allergen capitalisation. -/
def isWordChar (c : Char) : Bool :=
  isUpperChar c || ('a' ≤ c && c ≤ 'z') || isDigitChar c || c = '_'

/-- The character class `[A-Z\s]` of the allergen regex. -/
def isClassACWs (c : Char) : Bool := isUpperChar c || isWsChar c

/-- Lower-case a whole string character by character (JS `toLowerCase` on the
ASCII data these sources handle). -/
def lowerStr (s : String) : String := String.mk (s.toList.map Char.toLower)

/-- Embeds `normalize` of update-batch-products.js:
`(str || '').replace(/\s/g, '').toLowerCase()` — a null/undefined input
becomes the empty string, all whitespace is dropped, then case is folded. -/
def normalize (s : Option String) : String :=
  String.mk (((s.getD "").toList.filter (fun c => !isWsChar c)).map Char.toLower)

/-- JS `String.prototype.trim`: strip leading and trailing whitespace. -/
def trimStr (s : String) : String :=
  String.mk ((((s.toList.dropWhile isWsChar).reverse.dropWhile isWsChar).reverse))

/-- Does the list start with the given pattern list? -/
def listStartsWith : List Char → List Char → Bool
  | _, [] => true
  | [], _ :: _ => false
  | a :: as, b :: bs => a = b && listStartsWith as bs

/-- Substring containment on character lists (JS `String.prototype.includes`). -/
def listContainsSub : List Char → List Char → Bool
  | [], sub => sub.isEmpty
  | l@(_ :: rest), sub => listStartsWith l sub || listContainsSub rest sub

/-- JS `s.includes(sub)` on strings. -/
def strContains (s sub : String) : Bool := listContainsSub s.toList sub.toList

/-- JS `opt?.includes(sub)` under optional chaining: an absent receiver yields
undefined, which is falsy. -/
def optContains (o : Option String) (sub : String) : Bool :=
  match o with
  | none => false
  | some s => strContains s sub

/-- Greedy `\s*`: drop leading whitespace. -/
def skipLeadingWs (l : List Char) : List Char := l.dropWhile isWsChar

/-- Embeds the alternation `(z\d+|nb\d+)` anchored so that it must consume the
whole remaining input (the regex ends in `$`). Returns the captured code. -/
def parseCode : List Char → Option (List Char)
  | 'z' :: rest =>
    if rest ≠ [] && rest.all isDigitChar then some ('z' :: rest) else none
  | 'n' :: 'b' :: rest =>
    if rest ≠ [] && rest.all isDigitChar then some ('n' :: 'b' :: rest) else none
  | _ => none

/-- Scan character positions left to right looking for a hyphen whose tail is
`\s*(z\d+|nb\d+)` reaching the end of the string. -/
def extractSuffixAux : List Char → Option (List Char)
  | [] => none
  | c :: rest =>
    if c = '-' then
      match parseCode (skipLeadingWs rest) with
      | some code => some code
      | none => extractSuffixAux rest
    else extractSuffixAux rest

/-- Embeds `internalName.match` against the pattern `-\s*(z\d+|nb\d+)$`
followed by
`nameMatch ? nameMatch[1] : null`: the captured variant code, if any.
The code alternatives start with non-whitespace, non-hyphen characters, so the
leftmost regex match is found by taking the first hyphen whose tail (after
greedy whitespace) is a code running to the end of the string. -/
def extractSuffix (name : String) : Option String :=
  (extractSuffixAux name.toList).map String.mk

/-- Master-table (MTB) record fields used by the handlers. `prices` models
bracket access `mtbRecordFields["Verkoop 450g (€/kg)"]` and friends;
`baseProductGroupName` models `baseProductGroup?.name` (batch files) and the
plain `baseProductGroup` text (single file). -/
structure MtbFields where
  baseProductId : Option String
  prices : String → Option Int
  baseProductGroupName : Option String
  countryOfOrigin : Option String
  ingredients : Option String
  supplierProductName : Option String
  supplierProductUrl : Option String
  isOrganic : Option Bool
  isRaw : Option Bool
  isGeroosterd : Option Bool
  isGebrand : Option Bool
  isSalted : Option Bool
  isNutbutterAvailable : Option Bool

/-- Source-table (SPT) record as read from the batch view. `none` models an
absent (undefined) field. -/
structure SptRecord where
  id : String
  linkedBaseProductId : Option String
  internalName : Option String
  sptId : Option String
deriving DecidableEq

/-- Variant rule engine of update-batch-products.js (lines 93-109) and of
src/unnamed/part_000 (lines 97-113), which are identical: maps the extracted
suffix to (package-size label, selling price read from the named MTB price
field, fixed weight in grams); anything else yields all nulls. -/
def deriveVariant (suffix : Option String) (mtb : MtbFields) :
    Option String × Option Int × Option Nat :=
  if suffix = some "z450" then
    (some "450g Bag", mtb.prices "Verkoop 450g (€/kg)", some 600)
  else if suffix = some "z1000" then
    (some "1000g Bag", mtb.prices "Verkoop 1kg (€/kg)", some 1250)
  else if suffix = some "nb175" then
    (some "175g Jar", mtb.prices "Nut Butter 175g (€/potje)", some 400)
  else if suffix = some "nb365" then
    (some "365g Jar", mtb.prices "Nut Butter 365g (€/pot)", some 750)
  else (none, none, none)

/-- Variant rule engine of update-single-product.js (lines 87-103). It agrees
with `deriveVariant` except on z1000, where the package-size label is
"1kg Bag". -/
def deriveVariantSingle (suffix : Option String) (mtb : MtbFields) :
    Option String × Option Int × Option Nat :=
  if suffix = some "z450" then
    (some "450g Bag", mtb.prices "Verkoop 450g (€/kg)", some 600)
  else if suffix = some "z1000" then
    (some "1kg Bag", mtb.prices "Verkoop 1kg (€/kg)", some 1250)
  else if suffix = some "nb175" then
    (some "175g Jar", mtb.prices "Nut Butter 175g (€/potje)", some 400)
  else if suffix = some "nb365" then
    (some "365g Jar", mtb.prices "Nut Butter 365g (€/pot)", some 750)
  else (none, none, none)

/-- JS `Map` read over insertion-ordered entries: on duplicate keys the last
insertion wins, so the lookup scans the reversed entry list. -/
def mapGet (entries : List (String × String)) (k : String) : Option String :=
  (entries.reverse.find? (fun e => e.1 == k)).map Prod.snd

/-- Option-map construction of getSelectOptions in update-batch-products.js
(line 27): per select field, entries map `normalize(choice.name)` to the
choice id. A choice is a (name, id) pair. -/
def buildOptionMapNormalized (choices : List (String × String)) :
    List (String × String) :=
  choices.map (fun ch => (normalize (some ch.1), ch.2))

/-- Option resolution in update-batch-products.js: look the normalized text up
in the normalized-key map. -/
def resolveOptionNormalized (choices : List (String × String)) (t : String) :
    Option String :=
  mapGet (buildOptionMapNormalized choices) (normalize (some t))

/-- Option resolution in src/unnamed/part_000, whose getSelectOptions (line 24)
keys the map by the raw `choice.name` and whose handler looks raw text up. -/
def resolveOptionRaw (choices : List (String × String)) (t : String) :
    Option String :=
  mapGet choices t

/-- The per-field select-option maps consulted by the batch reconciler
(`selectOptions`). Each entry list holds the keys exactly as getSelectOptions
stored them (normalized choice names in update-batch-products.js, raw names
in part_000). `none` models a field that is not select-typed, so that
optional chaining `selectOptions.f?.has(...)` is falsy. -/
structure OptionMaps where
  packageSize : Option (List (String × String))
  productType : Option (List (String × String))
  category : Option (List (String × String))
  baseProductGroup : Option (List (String × String))
  countryOfOrigin : Option (List (String × String))

/-- `selectOptions.f?.has(k)` followed by `selectOptions.f.get(k)` when the
key is present: the resolved option id, or `none` when the field map is
absent or lacks the key. -/
def resolveSelect (m : Option (List (String × String))) (k : String) :
    Option String :=
  m.bind (fun entries => mapGet entries k)

/-- The value written for packageSize by the lenient variant (part_000): an
option-id reference or the raw derived value (possibly null). -/
inductive LenientVal where
  | ref (oid : String)
  | raw (t : Option String)
deriving DecidableEq

/-- Embeds part_000 lines 116-120:
`if (packageSize && selectOptions.packageSize?.has(packageSize))` write the
id reference, `else` write the raw value (the empty string is falsy). -/
def resolvePackageSizeLenient (m : Option (List (String × String)))
    (pkg : Option String) : LenientVal :=
  match pkg with
  | some s =>
    if s ≠ "" then
      match resolveSelect m s with
      | some oid => .ref oid
      | none => .raw (some s)
    else .raw (some s)
  | none => .raw none

/-- Classifier, product-type half (all three source files): "Nut Bag" if the
package size contains "Bag", else "Nut Butter Jar" if it contains "Jar",
else null. -/
def deriveProductType (pkg : Option String) : Option String :=
  if optContains pkg "Bag" then some "Nut Bag"
  else if optContains pkg "Jar" then some "Nut Butter Jar"
  else none

/-- Classifier, category half (all three source files), evaluated in order:
"Nut Butters" if the product type is "Nut Butter Jar", else "Mixes" if the
case-folded group text contains "mix", else "Whole Nuts". -/
def deriveCategory (productType : Option String) (groupText : String) : String :=
  if productType = some "Nut Butter Jar" then "Nut Butters"
  else if strContains groupText "mix" then "Mixes"
  else "Whole Nuts"

/-- `mtbRecordFields.baseProductGroup?.name?.toLowerCase() || ''`: the
case-folded group text, defaulting to the empty string. -/
def groupTextOf (mtb : MtbFields) : String :=
  (mtb.baseProductGroupName.map lowerStr).getD ""

/-- A `\b` word boundary between the last consumed character and the next
input character (end of input counts as a non-word character). -/
def boundaryOk (last : Char) (next : Option Char) : Bool :=
  isWordChar last != (match next with | some c => isWordChar c | none => false)

/-- Backtracking over the greedy `[A-Z\s]+` run: try to keep `k` characters of
the run (largest first) so that the trailing `\b` holds; on success return
the full match (first character included) and the remaining input. -/
def tryK (first : Char) (run rest : List Char) : Nat → Option (List Char × List Char)
  | 0 => none
  | Nat.succ k =>
    let taken := run.take (Nat.succ k)
    let rem := run.drop (Nat.succ k) ++ rest
    match taken.getLast? with
    | none => none
    | some last =>
      if boundaryOk last rem.head? then some (first :: taken, rem)
      else tryK first run rest k

/-- Try to match `\b([A-Z][A-Z\s]+)\b` at the current position; `prev` is the
character before the position (none at the start of the string). The leading
`\b` holds exactly when `prev` is not a word character, because the first
matched character is an uppercase letter. -/
def tryMatchAt (prev : Option Char) : List Char → Option (List Char × List Char)
  | [] => none
  | c :: rest =>
    if (match prev with | none => true | some p => !isWordChar p) && isUpperChar c then
      let run := rest.takeWhile isClassACWs
      tryK c run (rest.dropWhile isClassACWs) run.length
    else none

/-- Global scan of the allergen regex: find successive non-overlapping
leftmost matches, resuming after each match. Fuel bounds the recursion; every
step consumes at least one input character. -/
def scanAllergens : Nat → Option Char → List Char → List (List Char)
  | 0, _, _ => []
  | _ + 1, _, [] => []
  | Nat.succ fuel, prev, c :: rest =>
    match tryMatchAt prev (c :: rest) with
    | some (m, rem) => m :: scanAllergens fuel m.getLast? rem
    | none => scanAllergens fuel (some c) rest

/-- Embeds `ingredientsText.match` with the global regex — the list of
matched substrings (the JS null result for no matches is the empty list,
matching the `|| []` in the sources). -/
def regexAllergenMatches (s : String) : List String :=
  (scanAllergens (s.toList.length + 1) none s.toList).map String.mk

/-- Allergen post-processing of the batch files:
`(allergen.trim().toLowerCase()).replace` of `^\w` with its uppercase. -/
def allergenName (m : String) : String :=
  match (lowerStr (trimStr m)).toList with
  | [] => ""
  | c :: rest => if isWordChar c then String.mk (c.toUpper :: rest) else String.mk (c :: rest)

/-- Allergen post-processing of update-single-product.js:
`cleaned.charAt(0).toUpperCase() + cleaned.slice(1)`. -/
def allergenNameSingle (m : String) : String :=
  match (lowerStr (trimStr m)).toList with
  | [] => ""
  | c :: rest => String.mk (c.toUpper :: rest)

/-- Allergen extraction of the batch files: regex matches mapped through
`allergenName` (the payload stores these as name-only references). -/
def allergensOf (ingredients : String) : List String :=
  (regexAllergenMatches ingredients).map allergenName

/-- Allergen extraction of update-single-product.js. -/
def allergensOfSingle (ingredients : String) : List String :=
  (regexAllergenMatches ingredients).map allergenNameSingle

/-- The `updates` object assembled by the batch handler
(update-batch-products.js lines 85-168) for one record. Select-typed fields
hold `none` when the handler omits the field (no `{ id }` match) and
`some oid` for an id reference; `sellingPrice`/`weightGrams` are always
assigned, with `none` for a null/undefined value. -/
structure Payload where
  id : String
  packageSizeRef : Option String
  sellingPrice : Option Int
  weightGrams : Option Nat
  productTypeRef : Option String
  categoryRef : Option String
  baseProductGroupRef : Option String
  countryOfOriginRef : Option String
  allergens : List String
  supplierProductName : Option String
  ingredients : Option String
  supplierProductUrl : Option String
  isOrganic : Bool
  isRaw : Bool
  isGeroosterd : Bool
  isGebrand : Bool
  isSalted : Bool
  isNutbutterAvailable : Bool
  imageUrl : String
  marketingName : String
deriving DecidableEq

/-- Field derivation and assembly for one joined (SPT, MTB) pair, embedding
update-batch-products.js lines 85-168. A missing `sptId` interpolates as the
string "undefined" in the image-url template, as in JS. -/
def buildUpdates (opts : OptionMaps) (mtb : MtbFields) (recId : String)
    (sptId : Option String) (internalName : String) : Payload :=
  let suffix := extractSuffix internalName
  let derived := deriveVariant suffix mtb
  let pkg := derived.1
  let productType := deriveProductType pkg
  let category := deriveCategory productType (groupTextOf mtb)
  { id := recId
    packageSizeRef := resolveSelect opts.packageSize (normalize pkg)
    sellingPrice := derived.2.1
    weightGrams := derived.2.2
    productTypeRef := resolveSelect opts.productType (normalize productType)
    categoryRef := resolveSelect opts.category (normalize (some category))
    baseProductGroupRef :=
      resolveSelect opts.baseProductGroup (normalize mtb.baseProductGroupName)
    countryOfOriginRef :=
      resolveSelect opts.countryOfOrigin (normalize mtb.countryOfOrigin)
    allergens := allergensOf (mtb.ingredients.getD "")
    supplierProductName := mtb.supplierProductName
    ingredients := mtb.ingredients
    supplierProductUrl := mtb.supplierProductUrl
    isOrganic := mtb.isOrganic.getD false
    isRaw := mtb.isRaw.getD false
    isGeroosterd := mtb.isGeroosterd.getD false
    isGebrand := mtb.isGebrand.getD false
    isSalted := mtb.isSalted.getD false
    isNutbutterAvailable := mtb.isNutbutterAvailable.getD false
    imageUrl := "/images/" ++ sptId.getD "undefined" ++ ".jpg"
    marketingName := internalName }

/-- The TypeError raised by `internalName.match(...)` when the field is
undefined; its message reaches the top-level catch. -/
def typeErrMsg : String := "TypeError: Cannot read properties of undefined"

/-- One iteration of the reconciliation loop (update-batch-products.js lines
79-171): skip on falsy `linkedBaseProductId` (absent or empty), skip on an
MTB lookup miss, raise on a missing `internalName`, otherwise build the
payload. `Except.ok none` is the `continue`. -/
def reconcileOne (opts : OptionMaps) (mtbLookup : String → Option MtbFields)
    (r : SptRecord) : Except String (Option Payload) :=
  match r.linkedBaseProductId with
  | none => .ok none
  | some lid =>
    if lid = "" then .ok none
    else
      match mtbLookup lid with
      | none => .ok none
      | some mtb =>
        match r.internalName with
        | none => .error typeErrMsg
        | some name => .ok (some (buildUpdates opts mtb r.id r.sptId name))

/-- The whole reconciliation loop: payloads in record order, aborting with the
first raised error (which propagates to the top-level catch). -/
def reconcileAll (opts : OptionMaps) (mtbLookup : String → Option MtbFields) :
    List SptRecord → Except String (List Payload)
  | [] => .ok []
  | r :: rs =>
    match reconcileOne opts mtbLookup r with
    | .error e => .error e
    | .ok none => reconcileAll opts mtbLookup rs
    | .ok (some p) => (reconcileAll opts mtbLookup rs).map (fun ps => p :: ps)

/-- Chunking loop `for (let i = 0; i < n; i += 10) slice(i, i + 10)`, written
with fuel so that it computes by reduction; the fuel only needs to be at least
the list length, since every step consumes at least one element. -/
def chunkAux {α : Type} : Nat → List α → List (List α)
  | 0, _ => []
  | _ + 1, [] => []
  | Nat.succ fuel, l@(_ :: _) => l.take 10 :: chunkAux fuel (l.drop 10)

/-- The batch writer's partition of the payload list into successive slices of
at most 10 (update-batch-products.js lines 173-174). -/
def chunkPayloads {α : Type} (l : List α) : List (List α) := chunkAux l.length l

/-- The chunk sizes produced for a list of the given length. -/
def chunkLensAux : Nat → Nat → List Nat
  | 0, _ => []
  | _ + 1, 0 => []
  | Nat.succ fuel, Nat.succ m => min (Nat.succ m) 10 :: chunkLensAux fuel (Nat.succ m - 10)

/-- Chunk sizes as a function of the payload-list length alone. -/
def chunkLens (n : Nat) : List Nat := chunkLensAux n n

/-- Log line `Updating batch of N records...`. -/
def batchMsg (n : Nat) : String := "Updating batch of " ++ toString n ++ " records..."

/-- Log line pushed after a successful PATCH. -/
def okMsg : String := "Batch updated successfully."

/-- The message of the error thrown on a failed PATCH chunk, from the response
body text. -/
def failMsg (body : String) : String := "Failed to update batch: " ++ body

/-- The final log entry the top-level catch appends for an error message. -/
def errEntry (e : String) : String := "ERROR: " ++ e

/-- The write loop (update-batch-products.js lines 173-192) against a write
oracle `wr` (`none` = the PATCH succeeded, `some body` = it failed with that
response body). Returns the chunks for which a PATCH call was made, the log
lines pushed by the loop, and the thrown error message if any; the loop stops
at the first failure. -/
def writeChunks {α : Type} (wr : List α → Option String) :
    List (List α) → List (List α) × List String × Option String
  | [] => ([], [], none)
  | c :: cs =>
    match wr c with
    | none =>
      let r := writeChunks wr cs
      (c :: r.1, batchMsg c.length :: okMsg :: r.2.1, r.2.2)
    | some body => ([c], [batchMsg c.length], some (failMsg body))

/-- Outcome of one batch run: HTTP-style status, the log lines (write phase
plus the final error entry, the fetch-phase lines being constants that
precede them), and the chunks submitted to PATCH. -/
structure RunResult where
  status : Nat
  details : List String
  attempted : List (List Payload)
deriving DecidableEq

/-- The batch handler after its fetches succeeded (update-batch-products.js
lines 78-203): reconcile every record, write the payloads in chunks of 10,
and answer 200 on success or 500 with the error appended to the log — the
top-level catch handles both a reconciliation TypeError and a failed chunk. -/
def batchRun (opts : OptionMaps) (mtbLookup : String → Option MtbFields)
    (wr : List Payload → Option String) (records : List SptRecord) : RunResult :=
  match reconcileAll opts mtbLookup records with
  | .error e => ⟨500, [errEntry e], []⟩
  | .ok ps =>
    let w := writeChunks wr (chunkPayloads ps)
    match w.2.2 with
    | some e => ⟨500, w.2.1 ++ [errEntry e], w.1⟩
    | none => ⟨200, w.2.1, w.1⟩

/-- Decidable equality on thrown-or-value results, for evaluating the
embedding at concrete inputs. -/
instance {ε α : Type} [DecidableEq ε] [DecidableEq α] : DecidableEq (Except ε α) :=
  fun a b =>
  match a, b with
  | .ok x, .ok y =>
    if h : x = y then isTrue (by rw [h]) else isFalse (by intro hc; cases hc; exact h rfl)
  | .error x, .error y =>
    if h : x = y then isTrue (by rw [h]) else isFalse (by intro hc; cases hc; exact h rfl)
  | .ok _, .error _ => isFalse (by intro hc; cases hc)
  | .error _, .ok _ => isFalse (by intro hc; cases hc)

/-- A master record with no optional data and no price columns filled. -/
def sampleMtb : MtbFields :=
  ⟨some "b1", fun _ => none, none, none, none, none, none,
    none, none, none, none, none, none⟩

/-- Select-option maps for a schema without select-typed fields. -/
def optsNone : OptionMaps := ⟨none, none, none, none, none⟩

/-- Claim C1 (counterexample): the four-row table does not hold in every
variant of the derivation code — for the name "Product-z1000" the
single-product handler derives the package-size label "1kg Bag", not the
"1000g Bag" of the table in §4.2. -/
theorem c1_variant_table_counterexample :
    extractSuffix "Product-z1000" = some "z1000" ∧
    (deriveVariantSingle (extractSuffix "Product-z1000") sampleMtb).1 = some "1kg Bag" ∧
    (some "1kg Bag" : Option String) ≠ some "1000g Bag" := by
  refine ⟨by decide, by decide, by decide⟩

/-- Claim C1 (amended): for every internal name whose extracted variant code
is one of the four known codes, both batch derivation variants return exactly
the (package size, master price field, weight) triple of the table in §4.2;
the single-product variant returns the same triples except that for z1000 its
package-size label is "1kg Bag" instead of "1000g Bag". -/
theorem c1_variant_table (name : String) (mtb : MtbFields) :
    (extractSuffix name = some "z450" →
      deriveVariant (extractSuffix name) mtb =
        (some "450g Bag", mtb.prices "Verkoop 450g (€/kg)", some 600) ∧
      deriveVariantSingle (extractSuffix name) mtb =
        (some "450g Bag", mtb.prices "Verkoop 450g (€/kg)", some 600)) ∧
    (extractSuffix name = some "z1000" →
      deriveVariant (extractSuffix name) mtb =
        (some "1000g Bag", mtb.prices "Verkoop 1kg (€/kg)", some 1250) ∧
      deriveVariantSingle (extractSuffix name) mtb =
        (some "1kg Bag", mtb.prices "Verkoop 1kg (€/kg)", some 1250)) ∧
    (extractSuffix name = some "nb175" →
      deriveVariant (extractSuffix name) mtb =
        (some "175g Jar", mtb.prices "Nut Butter 175g (€/potje)", some 400) ∧
      deriveVariantSingle (extractSuffix name) mtb =
        (some "175g Jar", mtb.prices "Nut Butter 175g (€/potje)", some 400)) ∧
    (extractSuffix name = some "nb365" →
      deriveVariant (extractSuffix name) mtb =
        (some "365g Jar", mtb.prices "Nut Butter 365g (€/pot)", some 750) ∧
      deriveVariantSingle (extractSuffix name) mtb =
        (some "365g Jar", mtb.prices "Nut Butter 365g (€/pot)", some 750)) := by
  refine ⟨fun h => ?_, fun h => ?_, fun h => ?_, fun h => ?_⟩ <;>
    simp [deriveVariant, deriveVariantSingle, h]

/-- Claim C1 (witness): the amended theorem evaluated on the names
"Product-z450" and "Product-z1000". -/
theorem c1_variant_table_witness :
    deriveVariant (extractSuffix "Product-z450") sampleMtb =
      (some "450g Bag", sampleMtb.prices "Verkoop 450g (€/kg)", some 600) ∧
    deriveVariantSingle (extractSuffix "Product-z1000") sampleMtb =
      (some "1kg Bag", sampleMtb.prices "Verkoop 1kg (€/kg)", some 1250) := by
  exact ⟨((c1_variant_table "Product-z450" sampleMtb).1 (by decide)).1,
    ((c1_variant_table "Product-z1000" sampleMtb).2.1 (by decide)).2⟩

/-- Claim C2 (counterexample): option resolution is not
normalization-invariant in every variant — in the part_000 construction the
choice texts "Whole Nuts" and "whole nuts" normalize identically but resolve
to different results. -/
theorem c2_normalization_counterexample :
    normalize (some "Whole Nuts") = normalize (some "whole nuts") ∧
    resolveOptionRaw [("Whole Nuts", "optWN")] "Whole Nuts" ≠
      resolveOptionRaw [("Whole Nuts", "optWN")] "whole nuts" := by
  refine ⟨by decide, by decide⟩

/-- Claim C2 (amended): in the update-batch-products.js variant, any two
choice texts that agree after stripping whitespace and case-folding resolve
to the same option identifier; the part_000 variant keys and looks options up
by the raw text, so its resolution distinguishes normalization-equal texts. -/
theorem c2_normalization_invariance :
    (∀ (choices : List (String × String)) (t1 t2 : String),
      normalize (some t1) = normalize (some t2) →
      resolveOptionNormalized choices t1 = resolveOptionNormalized choices t2) ∧
    (resolveOptionRaw [("Whole Nuts", "optWN")] "Whole Nuts" = some "optWN" ∧
     resolveOptionRaw [("Whole Nuts", "optWN")] "whole nuts" = none ∧
     normalize (some "Whole Nuts") = normalize (some "whole nuts")) := by
  refine ⟨fun choices t1 t2 h => ?_, by decide, by decide, by decide⟩
  unfold resolveOptionNormalized
  rw [h]

/-- Claim C2 (witness): the invariance half evaluated on the three §8 sample
texts against a one-choice field. -/
theorem c2_normalization_invariance_witness :
    resolveOptionNormalized [("Whole Nuts", "optWN")] "whole nuts" =
      resolveOptionNormalized [("Whole Nuts", "optWN")] " Whole   Nuts " ∧
    resolveOptionNormalized [("Whole Nuts", "optWN")] "whole nuts" =
      resolveOptionNormalized [("Whole Nuts", "optWN")] "Whole Nuts" := by
  exact ⟨c2_normalization_invariance.1 [("Whole Nuts", "optWN")]
      "whole nuts" " Whole   Nuts " (by decide),
    c2_normalization_invariance.1 [("Whole Nuts", "optWN")]
      "whole nuts" "Whole Nuts" (by decide)⟩

/-- Claim C5: on the ingredients text "SOYA, almonds, MILK powder" the regex
matches are "SOYA" and "MILK " (trailing space included), and both the batch
and the single-product post-processing yield exactly ["Soya", "Milk"];
"almonds" and "powder" contribute nothing and the trailing space is trimmed. -/
theorem c5_allergen_extraction :
    regexAllergenMatches "SOYA, almonds, MILK powder" = ["SOYA", "MILK "] ∧
    allergensOf "SOYA, almonds, MILK powder" = ["Soya", "Milk"] ∧
    allergensOfSingle "SOYA, almonds, MILK powder" = ["Soya", "Milk"] ∧
    allergenName "MILK " = "Milk" := by
  refine ⟨by decide, by decide, by decide, by decide⟩

theorem chunkAux_flatten {α : Type} :
    ∀ (fuel : Nat) (l : List α), l.length ≤ fuel → (chunkAux fuel l).flatten = l := by
  intro fuel
  induction fuel with
  | zero =>
    intro l hl
    have : l = [] := List.eq_nil_of_length_eq_zero (Nat.le_zero.mp hl)
    subst this; rfl
  | succ fuel ih =>
    intro l hl
    cases l with
    | nil => rfl
    | cons a as =>
      have hlen : ((a :: as).drop 10).length ≤ fuel := by
        simp only [List.length_drop, List.length_cons] at hl ⊢
        omega
      simp only [chunkAux, List.flatten_cons]
      rw [ih _ hlen, List.take_append_drop]

theorem chunkAux_le10 {α : Type} :
    ∀ (fuel : Nat) (l : List α) (c : List α), c ∈ chunkAux fuel l → c.length ≤ 10 := by
  intro fuel
  induction fuel with
  | zero => intro l c hc; simp [chunkAux] at hc
  | succ fuel ih =>
    intro l c hc
    cases l with
    | nil => simp [chunkAux] at hc
    | cons a as =>
      simp only [chunkAux, List.mem_cons] at hc
      rcases hc with hc | hc
      · subst hc; rw [List.length_take]; omega
      · exact ih _ _ hc

theorem chunkAux_lens {α : Type} :
    ∀ (fuel : Nat) (l : List α),
      (chunkAux fuel l).map List.length = chunkLensAux fuel l.length := by
  intro fuel
  induction fuel with
  | zero => intro l; rfl
  | succ fuel ih =>
    intro l
    cases l with
    | nil => rfl
    | cons a as =>
      simp only [chunkAux, List.map_cons, List.length_cons, chunkLensAux]
      congr 1
      · rw [List.length_take, List.length_cons]
        omega
      · rw [ih]
        congr 1
        rw [List.length_drop, List.length_cons]

theorem writeChunks_allOk {α : Type} :
    ∀ (cs : List (List α)),
      (writeChunks (fun _ => (none : Option String)) cs).1 = cs := by
  intro cs
  induction cs with
  | nil => rfl
  | cons c cs ih => simp only [writeChunks]; rw [ih]

/-- Claim C6: the batch writer partitions the payload list into consecutive
in-order chunks of at most 10 (their concatenation is the original list), and
a 23-payload list gives exactly 3 chunks of sizes 10, 10 and 3 — so exactly
three PATCH calls, as the write loop performs one call per chunk. -/
theorem c6_batch_chunking (l : List Payload) :
    (chunkPayloads l).flatten = l ∧
    (∀ c ∈ chunkPayloads l, c.length ≤ 10) ∧
    (l.length = 23 →
      (chunkPayloads l).map List.length = [10, 10, 3] ∧
      (chunkPayloads l).length = 3 ∧
      (writeChunks (fun _ => (none : Option String)) (chunkPayloads l)).1 =
        chunkPayloads l) := by
  refine ⟨chunkAux_flatten l.length l (Nat.le_refl _),
    fun c hc => chunkAux_le10 l.length l c hc, fun h23 => ?_⟩
  have hlens : (chunkPayloads l).map List.length = [10, 10, 3] := by
    unfold chunkPayloads
    rw [chunkAux_lens, h23]
    decide
  refine ⟨hlens, ?_, writeChunks_allOk _⟩
  have := congrArg List.length hlens
  simpa using this

/-- A payload as the reconciler emits it for an SPT record named "P-z450"
with sptId "s1" joined to `sampleMtb` under `optsNone`. -/
def samplePayload : Payload :=
  ⟨"r1", none, none, some 600, none, none, none, none, [],
    none, none, none, false, false, false, false, false, false,
    "/images/s1.jpg", "P-z450"⟩

/-- Claim C6 (witness): the chunk-size conclusion evaluated on a concrete
23-payload list. -/
theorem c6_batch_chunking_witness :
    (chunkPayloads (List.replicate 23 samplePayload)).map List.length = [10, 10, 3] := by
  exact ((c6_batch_chunking (List.replicate 23 samplePayload)).2.2 (by simp)).1

/-- Select-option maps whose only select-typed field is category, with the
single (already normalized) choice key "wholenuts". -/
def c10opts : OptionMaps := ⟨none, none, some [("wholenuts", "optWN")], none, none⟩

/-- An SPT record whose internal name carries no variant suffix. -/
def c10rec : SptRecord := ⟨"r1", some "b1", some "Plain Almonds", some "s1"⟩

/-- The payload the batch reconciler emits for `c10rec` joined to `sampleMtb`
under `c10opts`: category resolved, package size and product type omitted. -/
def c10pay : Payload :=
  ⟨"r1", none, none, none, none, some "optWN", none, none, [],
    none, none, none, false, false, false, false, false, false,
    "/images/s1.jpg", "Plain Almonds"⟩

/-- Claim C10: the derived category is always exactly one of "Nut Butters",
"Mixes", "Whole Nuts"; with no variant suffix the derivation is all-null and
the category is "Mixes" exactly when the case-folded master group text
contains "mix", else "Whole Nuts"; and a concrete record without a suffix
still gets a payload carrying a resolved category id while packageSize and
productType are omitted. -/
theorem c10_category_total :
    (∀ (pt : Option String) (gt : String),
      deriveCategory pt gt = "Nut Butters" ∨ deriveCategory pt gt = "Mixes" ∨
        deriveCategory pt gt = "Whole Nuts") ∧
    (∀ mtb : MtbFields, deriveVariant none mtb = (none, none, none)) ∧
    (∀ gt : String,
      deriveCategory (deriveProductType none) gt =
        if strContains gt "mix" then "Mixes" else "Whole Nuts") ∧
    (reconcileOne c10opts (fun _ => some sampleMtb) c10rec = .ok (some c10pay) ∧
     c10pay.categoryRef = some "optWN" ∧ c10pay.packageSizeRef = none ∧
     c10pay.productTypeRef = none) := by
  refine ⟨fun pt gt => ?_, fun mtb => rfl, fun gt => rfl, by decide, by decide, by decide, by decide⟩
  unfold deriveCategory
  split
  · exact Or.inl rfl
  · split
    · exact Or.inr (Or.inl rfl)
    · exact Or.inr (Or.inr rfl)

/-- Claim C4 hypothesis: the extracted variant code of the name is absent or
is none of the four known codes. -/
def unknownSuffix (name : String) : Prop :=
  extractSuffix name = none ∨
    (extractSuffix name ≠ some "z450" ∧ extractSuffix name ≠ some "z1000" ∧
     extractSuffix name ≠ some "nb175" ∧ extractSuffix name ≠ some "nb365")

instance (name : String) : Decidable (unknownSuffix name) := by
  unfold unknownSuffix; infer_instance

/-- Claim C4: a name without a recognized variant code derives null package
size, selling price and weight, with no error raised; and a record bearing
that name whose master link resolves still gets an update payload built from
the remaining fields. -/
theorem c4_unknown_suffix (name : String) (mtb : MtbFields) (opts : OptionMaps)
    (lookup : String → Option MtbFields) (rid : String) (sid : Option String)
    (lid : String) (h : unknownSuffix name) :
    deriveVariant (extractSuffix name) mtb = (none, none, none) ∧
    (lid ≠ "" → lookup lid = some mtb →
      reconcileOne opts lookup ⟨rid, some lid, some name, sid⟩ =
        .ok (some (buildUpdates opts mtb rid sid name)) ∧
      (buildUpdates opts mtb rid sid name).sellingPrice = none ∧
      (buildUpdates opts mtb rid sid name).weightGrams = none) := by
  have hd : deriveVariant (extractSuffix name) mtb = (none, none, none) := by
    unfold deriveVariant
    rcases h with h | ⟨h1, h2, h3, h4⟩
    · simp [h]
    · simp [h1, h2, h3, h4]
  refine ⟨hd, fun hlid hlook => ⟨?_, ?_, ?_⟩⟩
  · simp [reconcileOne, hlid, hlook]
  · simp [buildUpdates, hd]
  · simp [buildUpdates, hd]

/-- Claim C4 (witness): the theorem evaluated on the suffix-free name
"Plain Cashews" with a resolvable master link. -/
theorem c4_unknown_suffix_witness :
    deriveVariant (extractSuffix "Plain Cashews") sampleMtb = (none, none, none) ∧
    (buildUpdates optsNone sampleMtb "r1" (some "s1") "Plain Cashews").sellingPrice = none ∧
    reconcileOne optsNone (fun _ => some sampleMtb) ⟨"r1", some "b1", some "Plain Cashews", some "s1"⟩ =
      .ok (some (buildUpdates optsNone sampleMtb "r1" (some "s1") "Plain Cashews")) := by
  have h := c4_unknown_suffix "Plain Cashews" sampleMtb optsNone
    (fun _ => some sampleMtb) "r1" (some "s1") "b1" (by decide)
  exact ⟨h.1, (h.2 (by decide) rfl).2.1, (h.2 (by decide) rfl).1⟩

theorem reconcileOne_ok_some {opts : OptionMaps} {lookup : String → Option MtbFields}
    {r : SptRecord} {p : Payload} {name lid : String} {mtb : MtbFields}
    (hname : r.internalName = some name) (hlink : r.linkedBaseProductId = some lid)
    (hlook : lookup lid = some mtb)
    (h : reconcileOne opts lookup r = .ok (some p)) :
    p = buildUpdates opts mtb r.id r.sptId name := by
  simp only [reconcileOne, hlink, hname, hlook] at h
  by_cases hl : lid = ""
  · simp [hl] at h
  · rw [if_neg hl] at h
    simp only [Except.ok.injEq, Option.some.injEq] at h
    exact h.symm

/-- Select-option maps whose only select-typed field is packageSize, with the
single (already normalized) choice key "450gbag". -/
def c3opts : OptionMaps := ⟨some [("450gbag", "optPS")], none, none, none, none⟩

/-- An SPT record named with the z450 variant suffix. -/
def sptRecZ450 : SptRecord := ⟨"r1", some "b1", some "P-z450", some "s1"⟩

/-- The payload the batch reconciler emits for `sptRecZ450` joined to
`sampleMtb` under `c3opts`: packageSize resolved to its option id. -/
def c3pay : Payload :=
  ⟨"r1", some "optPS", none, some 600, none, none, none, none, [],
    none, none, none, false, false, false, false, false, false,
    "/images/s1.jpg", "P-z450"⟩

/-- Claim C3: for an emitted payload, when the derived package-size text has
a match in the option map the payload carries the id reference, and when it
has none the strict (batch-file) reconciler omits the field; the lenient
(part_000) step instead writes the id reference on a raw-text match and falls
back to the raw derived value otherwise. -/
theorem c3_packageSize_policy
    (opts : OptionMaps) (lookup : String → Option MtbFields) (r : SptRecord)
    (p : Payload) (name lid : String) (mtb : MtbFields)
    (h : reconcileOne opts lookup r = .ok (some p))
    (hname : r.internalName = some name) (hlink : r.linkedBaseProductId = some lid)
    (hlook : lookup lid = some mtb) :
    (∀ oid, resolveSelect opts.packageSize
        (normalize (deriveVariant (extractSuffix name) mtb).1) = some oid →
      p.packageSizeRef = some oid) ∧
    (resolveSelect opts.packageSize
        (normalize (deriveVariant (extractSuffix name) mtb).1) = none →
      p.packageSizeRef = none) ∧
    (∀ (m : Option (List (String × String))) (s oid : String), s ≠ "" →
      resolveSelect m s = some oid →
      resolvePackageSizeLenient m (some s) = .ref oid) ∧
    (∀ (m : Option (List (String × String))) (pkg : Option String),
      (∀ s, pkg = some s → s = "" ∨ resolveSelect m s = none) →
      resolvePackageSizeLenient m pkg = .raw pkg) := by
  have hp : p = buildUpdates opts mtb r.id r.sptId name :=
    reconcileOne_ok_some hname hlink hlook h
  have hps : p.packageSizeRef = resolveSelect opts.packageSize
      (normalize (deriveVariant (extractSuffix name) mtb).1) := by
    rw [hp]; simp [buildUpdates]
  refine ⟨fun oid hres => by rw [hps, hres], fun hres => by rw [hps, hres],
    fun m s oid hs hres => by simp [resolvePackageSizeLenient, hs, hres],
    fun m pkg hraw => ?_⟩
  cases pkg with
  | none => rfl
  | some s =>
    rcases hraw s rfl with he | hn
    · simp [resolvePackageSizeLenient, he]
    · by_cases hse : s = ""
      · simp [resolvePackageSizeLenient, hse]
      · simp [resolvePackageSizeLenient, hse, hn]

/-- Claim C3 (witness): the policy theorem evaluated on a z450 record whose
package size matches the option map, plus the lenient step on a matching and
on a non-matching raw text. -/
theorem c3_packageSize_policy_witness :
    c3pay.packageSizeRef = some "optPS" ∧
    resolvePackageSizeLenient (some [("450g Bag", "optB")]) (some "450g Bag") =
      .ref "optB" ∧
    resolvePackageSizeLenient (some [("450g Bag", "optB")]) (some "999g Bag") =
      .raw (some "999g Bag") := by
  have h := c3_packageSize_policy c3opts (fun _ => some sampleMtb) sptRecZ450
    c3pay "P-z450" "b1" sampleMtb (by decide) rfl rfl rfl
  exact ⟨h.1 "optPS" (by decide),
    h.2.2.1 (some [("450g Bag", "optB")]) "450g Bag" "optB" (by decide) (by decide),
    h.2.2.2 (some [("450g Bag", "optB")]) (some "999g Bag")
      (by intro s hs; cases hs; exact Or.inr (by decide))⟩

theorem reconcileAll_skip {opts : OptionMaps} {lookup : String → Option MtbFields}
    {r : SptRecord} (h1 : reconcileOne opts lookup r = .ok none) :
    ∀ (xs ys : List SptRecord),
      reconcileAll opts lookup (xs ++ r :: ys) = reconcileAll opts lookup (xs ++ ys) := by
  intro xs ys
  induction xs with
  | nil => simp [reconcileAll, h1]
  | cons x xs ih =>
    rcases hx : reconcileOne opts lookup x with e | o
    · simp [reconcileAll, hx]
    · cases o with
      | none => simpa [reconcileAll, hx] using ih
      | some p => simp [reconcileAll, hx, ih]

/-- Claim C7: a record whose master link is absent or misses the MTB lookup
contributes no payload, and the reconciliation of the whole list equals the
reconciliation with that record removed — the other payloads are unchanged
and the run is not aborted. -/
theorem c7_lookup_miss (opts : OptionMaps) (lookup : String → Option MtbFields)
    (xs ys : List SptRecord) (r : SptRecord)
    (h : ∀ lid, r.linkedBaseProductId = some lid → lookup lid = none) :
    reconcileOne opts lookup r = .ok none ∧
    reconcileAll opts lookup (xs ++ r :: ys) = reconcileAll opts lookup (xs ++ ys) := by
  have h1 : reconcileOne opts lookup r = .ok none := by
    rcases hr : r.linkedBaseProductId with _ | lid
    · simp [reconcileOne, hr]
    · by_cases hl : lid = ""
      · simp [reconcileOne, hr, hl]
      · simp [reconcileOne, hr, hl, h lid hr]
  exact ⟨h1, reconcileAll_skip h1 xs ys⟩

/-- Claim C7 (witness): the theorem evaluated on a record whose linked id is
missing from an empty lookup, surrounded by empty record lists. -/
theorem c7_lookup_miss_witness :
    reconcileOne optsNone (fun _ => none) ⟨"rM", some "zz", some "n", none⟩ = .ok none ∧
    reconcileAll optsNone (fun _ => none) [⟨"rM", some "zz", some "n", none⟩] =
      reconcileAll optsNone (fun _ => none) [] := by
  exact c7_lookup_miss optsNone (fun _ => none) [] []
    ⟨"rM", some "zz", some "n", none⟩ (fun lid _ => rfl)

theorem reconcileOne_error_eq {opts : OptionMaps} {lookup : String → Option MtbFields}
    {r : SptRecord} {e : String} (h : reconcileOne opts lookup r = .error e) :
    e = typeErrMsg := by
  rcases hr : r.linkedBaseProductId with _ | lid
  · simp [reconcileOne, hr] at h
  · by_cases hl : lid = ""
    · simp [reconcileOne, hr, hl] at h
    · rcases hk : lookup lid with _ | mtb
      · simp [reconcileOne, hr, hl, hk] at h
      · rcases hn : r.internalName with _ | nm
        · simp [reconcileOne, hr, hl, hk, hn] at h
          exact h.symm
        · simp [reconcileOne, hr, hl, hk, hn] at h

theorem reconcileAll_error_of_mem {opts : OptionMaps} {lookup : String → Option MtbFields}
    {r : SptRecord} {records : List SptRecord}
    (hmem : r ∈ records) (h1 : reconcileOne opts lookup r = .error typeErrMsg) :
    reconcileAll opts lookup records = .error typeErrMsg := by
  induction records with
  | nil => cases hmem
  | cons x rs ih =>
    rcases hx : reconcileOne opts lookup x with e | o
    · have he : e = typeErrMsg := reconcileOne_error_eq hx
      subst he
      simp [reconcileAll, hx]
    · have hmem2 : r ∈ rs := by
        rcases List.mem_cons.mp hmem with heq | htl
        · subst heq; rw [h1] at hx; cases hx
        · exact htl
      cases o with
      | none => simpa [reconcileAll, hx] using ih hmem2
      | some p =>
        simp only [reconcileAll, hx]
        rw [ih hmem2]
        rfl

/-- Claim C9: a record with a resolvable master link but no internalName is
not skipped — the unguarded name match raises, reconciliation reports the
TypeError, and the whole run answers the generic 500 failure with the error
as the log entry and no chunk ever submitted. -/
theorem c9_missing_name (opts : OptionMaps) (lookup : String → Option MtbFields)
    (wr : List Payload → Option String) (records : List SptRecord)
    (r : SptRecord) (lid : String) (mtb : MtbFields)
    (hmem : r ∈ records) (hlink : r.linkedBaseProductId = some lid)
    (hlid : lid ≠ "") (hlook : lookup lid = some mtb)
    (hname : r.internalName = none) :
    reconcileAll opts lookup records = .error typeErrMsg ∧
    batchRun opts lookup wr records = ⟨500, [errEntry typeErrMsg], []⟩ := by
  have h1 : reconcileOne opts lookup r = .error typeErrMsg := by
    simp [reconcileOne, hlink, hlid, hlook, hname]
  have h2 := reconcileAll_error_of_mem hmem h1
  exact ⟨h2, by simp [batchRun, h2]⟩

/-- Claim C9 (witness): the theorem evaluated on a one-record batch whose
record lacks an internalName but has a resolvable link. -/
theorem c9_missing_name_witness :
    reconcileAll optsNone (fun _ => some sampleMtb) [⟨"r1", some "b1", none, some "s"⟩] =
      .error typeErrMsg ∧
    batchRun optsNone (fun _ => some sampleMtb) (fun _ => none)
      [⟨"r1", some "b1", none, some "s"⟩] = ⟨500, [errEntry typeErrMsg], []⟩ := by
  exact c9_missing_name optsNone (fun _ => some sampleMtb) (fun _ => none)
    [⟨"r1", some "b1", none, some "s"⟩] ⟨"r1", some "b1", none, some "s"⟩
    "b1" sampleMtb (List.mem_singleton.mpr rfl) rfl (by decide) rfl rfl

theorem writeChunks_fail {α : Type} (wr : List α → Option String) :
    ∀ (pre : List (List α)) (c : List α) (post : List (List α)) (body : String),
      (∀ c2 ∈ pre, wr c2 = none) → wr c = some body →
      writeChunks wr (pre ++ c :: post) =
        (pre ++ [c],
         (pre.map fun c2 => [batchMsg c2.length, okMsg]).flatten ++ [batchMsg c.length],
         some (failMsg body)) := by
  intro pre
  induction pre with
  | nil => intro c post body _ hc; simp [writeChunks, hc]
  | cons q pre ih =>
    intro c post body hpre hc
    have hq : wr q = none := hpre q (List.mem_cons_self q pre)
    have hrest : ∀ c2 ∈ pre, wr c2 = none := fun c2 h2 => hpre c2 (List.mem_cons_of_mem q h2)
    simp only [List.cons_append, writeChunks, hq, List.append_eq]
    rw [ih c post body hrest hc]
    simp

/-- Claim C8: when the first failing PATCH chunk follows a run of successful
ones, the run submits exactly the successful prefix plus the failing chunk
(nothing after it), keeps the prefix written, answers the generic 500 status,
and its details log ends with the error entry for the failed chunk. -/
theorem c8_write_failure (opts : OptionMaps) (lookup : String → Option MtbFields)
    (wr : List Payload → Option String) (records : List SptRecord)
    (ps : List Payload) (pre : List (List Payload)) (c : List Payload)
    (post : List (List Payload)) (body : String)
    (hrec : reconcileAll opts lookup records = .ok ps)
    (hch : chunkPayloads ps = pre ++ c :: post)
    (hpre : ∀ c2 ∈ pre, wr c2 = none)
    (hc : wr c = some body) :
    (batchRun opts lookup wr records).attempted = pre ++ [c] ∧
    (batchRun opts lookup wr records).status = 500 ∧
    (batchRun opts lookup wr records).details =
      (pre.map fun c2 => [batchMsg c2.length, okMsg]).flatten ++
        [batchMsg c.length, errEntry (failMsg body)] ∧
    (batchRun opts lookup wr records).details.getLast? =
      some (errEntry (failMsg body)) := by
  have hw := writeChunks_fail wr pre c post body hpre hc
  have hb : batchRun opts lookup wr records =
      ⟨500,
       ((pre.map fun c2 => [batchMsg c2.length, okMsg]).flatten ++ [batchMsg c.length]) ++
         [errEntry (failMsg body)],
       pre ++ [c]⟩ := by
    simp [batchRun, hrec, hch, hw]
  refine ⟨by rw [hb], by rw [hb], ?_, ?_⟩
  · rw [hb]
    simp
  · rw [hb]
    exact List.getLast?_concat _

/-- Claim C8 (witness): the theorem evaluated on a one-record run whose single
chunk fails with response body "boom". -/
theorem c8_write_failure_witness :
    (batchRun optsNone (fun _ => some sampleMtb) (fun _ => some "boom")
        [sptRecZ450]).status = 500 ∧
    (batchRun optsNone (fun _ => some sampleMtb) (fun _ => some "boom")
        [sptRecZ450]).attempted = [[samplePayload]] ∧
    (batchRun optsNone (fun _ => some sampleMtb) (fun _ => some "boom")
        [sptRecZ450]).details.getLast? = some (errEntry (failMsg "boom")) := by
  have h := c8_write_failure optsNone (fun _ => some sampleMtb) (fun _ => some "boom")
    [sptRecZ450] [samplePayload] [] [samplePayload] [] "boom"
    (by decide) (by decide) (by simp) rfl
  exact ⟨h.2.1, h.1, h.2.2.2⟩

end NootBoter

